import Mathlib

/-!
Shallow embedding of the INMET Data Quality Analyzer core
(src/config.py, src/modules/data_loader.py, src/modules/data_validator.py,
src/modules/quality_metrics.py) and proofs about its quality metrics,
validation and parsing logic.

Numeric cell values (pandas nullable floats) are modelled as `Option ℚ`:
`none` is NaN/null, `some v` an exact rational value.  Dates are modelled
as integer day numbers.  Floating-point rounding is abstracted away: all
arithmetic is exact rational arithmetic.
-/

namespace INMET

/-- A cell of a variable column: a nullable numeric value. -/
abbrev Cell := Option ℚ

/-- A variable column of the observation table, in row order.  In a pandas
DataFrame every column has exactly `len(df)` rows, so the row count
`len(self.df)` is the length of the column. -/
abbrev Col := List Cell

/-- Non-null values of a column in row order (pandas `Series.dropna()`). -/
def dropna (c : Col) : List ℚ := c.filterMap id

/-- Count of non-null cells (`df[col].notna().sum()`). -/
def nonNullCount (c : Col) : ℕ := (dropna c).length

/-- Null mask of a column (`df[col].isna()`). -/
def null_mask (c : Col) : List Bool := c.map Option.isNone

/-! Configuration constants from src/config.py. -/

/-- QUALITY_INDEX_WEIGHTS from config.py: completude 0.4, validade 0.4,
consistencia 0.2, as exact rationals (2/5, 2/5, 1/5). -/
def QUALITY_INDEX_WEIGHTS : ℚ × ℚ × ℚ := (2/5, 2/5, 1/5)

/-- RECOMMENDATION_CRITERIA adequado threshold from config.py. -/
def RECOMMENDATION_CRITERIA_adequado : ℚ := 80

/-- RECOMMENDATION_CRITERIA parcialmente_adequado threshold from config.py. -/
def RECOMMENDATION_CRITERIA_parcialmente_adequado : ℚ := 60

/-! DataValidator.validate_physical_limits (src/modules/data_validator.py).
The Python loop runs once per column that has configured physical limits;
the embedding takes the column and its `(min_limit, max_limit)` pair. -/

/-- Pandas cell test underlying `(df[col] >= min_limit) & (df[col] <= max_limit)`:
comparisons against NaN evaluate to False, so a null cell is never valid. -/
def validCell (mn mx : ℚ) (cell : Cell) : Bool :=
  match cell with
  | none => false
  | some v => decide (mn ≤ v) && decide (v ≤ mx)

/-- The boolean mask `(df[col] >= min_limit) & (df[col] <= max_limit)`. -/
def valid_mask (mn mx : ℚ) (c : Col) : List Bool := c.map (validCell mn mx)

/-- Per-variable result dictionary of validate_physical_limits.  The
`valid_percentage` and `invalid_indices` entries are not needed by any claim
and are omitted from the record. -/
structure ValidationResult where
  valid_count : ℕ
  invalid_count : ℕ
  null_count : ℕ
  total_count : ℕ
  min_limit : ℚ
  max_limit : ℚ
  deriving Repr, DecidableEq

/-- DataValidator.validate_physical_limits for one column with configured
limits: `valid_count = valid_mask.sum()`, `invalid_count = (~valid_mask &
~null_mask).sum()`, `null_count = null_mask.sum()`, `total_count = len(df)`. -/
def validate_physical_limits (mn mx : ℚ) (c : Col) : ValidationResult :=
  { valid_count := (valid_mask mn mx c).count true
  , invalid_count :=
      ((valid_mask mn mx c).zip (null_mask c)).countP fun p => !p.1 && !p.2
  , null_count := (null_mask c).count true
  , total_count := c.length
  , min_limit := mn
  , max_limit := mx }

/-! QualityMetricsCalculator.get_recommendation (src/modules/quality_metrics.py). -/

/-- QualityMetricsCalculator.get_recommendation: the three-tier
recommendation with its fixed description strings. -/
def get_recommendation (quality_index : ℚ) : String × String :=
  if RECOMMENDATION_CRITERIA_adequado ≤ quality_index then
    ("Adequado", "Dados de qualidade adequada para uso científico")
  else if RECOMMENDATION_CRITERIA_parcialmente_adequado ≤ quality_index then
    ("Parcialmente Adequado",
      "Dados com qualidade moderada, recomenda-se revisão antes do uso")
  else
    ("Inadequado", "Dados com qualidade insuficiente para uso científico")

/-! Helper lemmas about the mask counts. -/

lemma count_true_map {α : Type} (f : α → Bool) (c : List α) :
    (c.map f).count true = c.countP f := by
  induction c with
  | nil => simp
  | cons hd tl ih =>
    simp [List.count_cons, List.countP_cons, ih]

lemma countP_zip_map {α : Type} (f g : α → Bool) (p : Bool → Bool → Bool)
    (c : List α) :
    ((c.map f).zip (c.map g)).countP (fun q => p q.1 q.2) =
      c.countP fun x => p (f x) (g x) := by
  induction c with
  | nil => simp
  | cons hd tl ih =>
    simp [List.countP_cons, ih]

lemma countP_tri (c : Col) (p q r : Cell → Bool)
    (h : ∀ a : Cell, (p a).toNat + (q a).toNat + (r a).toNat = 1) :
    c.countP p + c.countP q + c.countP r = c.length := by
  induction c with
  | nil => simp
  | cons hd tl ih =>
    have hhd := h hd
    simp only [List.countP_cons, List.length_cons]
    cases hp : p hd <;> cases hq : q hd <;> cases hr : r hd <;>
      simp [hp, hq, hr] at hhd ⊢ <;> omega

/-- The claim C4: the ValidationResult of validate_physical_limits satisfies
valid_count + invalid_count + null_count = total_count, where total_count is
the number of rows, valid_count counts non-null in-range cells, invalid_count
counts non-null out-of-range cells and null_count counts null cells. -/
theorem C4_validation_result_partition (mn mx : ℚ) (c : Col) :
    (validate_physical_limits mn mx c).valid_count +
        (validate_physical_limits mn mx c).invalid_count +
        (validate_physical_limits mn mx c).null_count =
      (validate_physical_limits mn mx c).total_count ∧
    (validate_physical_limits mn mx c).total_count = c.length ∧
    (validate_physical_limits mn mx c).valid_count =
      c.countP (fun cell => cell.any fun v => decide (mn ≤ v ∧ v ≤ mx)) ∧
    (validate_physical_limits mn mx c).invalid_count =
      c.countP (fun cell => cell.any fun v => decide (¬(mn ≤ v ∧ v ≤ mx))) ∧
    (validate_physical_limits mn mx c).null_count = c.countP Option.isNone := by
  have hvalid : (validate_physical_limits mn mx c).valid_count =
      c.countP (validCell mn mx) := by
    simp [validate_physical_limits, valid_mask, count_true_map]
  have hnull : (validate_physical_limits mn mx c).null_count =
      c.countP Option.isNone := by
    simp [validate_physical_limits, null_mask, count_true_map]
  have hinvalid : (validate_physical_limits mn mx c).invalid_count =
      c.countP fun cell => !validCell mn mx cell && !(Option.isNone cell) := by
    show ((c.map (validCell mn mx)).zip (c.map Option.isNone)).countP
        (fun q => !q.1 && !q.2) = _
    exact countP_zip_map _ _ (fun a b => !a && !b) c
  have hvalid' : c.countP (validCell mn mx) =
      c.countP (fun cell => cell.any fun v => decide (mn ≤ v ∧ v ≤ mx)) := by
    apply List.countP_congr
    intro cell _
    cases cell with
    | none => simp [validCell]
    | some v =>
      by_cases h1 : mn ≤ v <;> by_cases h2 : v ≤ mx <;>
        simp [validCell, Option.any, h1, h2]
  have hinvalid' :
      (c.countP fun cell => !validCell mn mx cell && !(Option.isNone cell)) =
      c.countP (fun cell => cell.any fun v => decide (¬(mn ≤ v ∧ v ≤ mx))) := by
    apply List.countP_congr
    intro cell _
    cases cell with
    | none => simp [validCell]
    | some v =>
      by_cases h1 : mn ≤ v <;> by_cases h2 : v ≤ mx <;>
        simp [validCell, Option.any, h1, h2]
  have hsum : c.countP (validCell mn mx) +
      (c.countP fun cell => !validCell mn mx cell && !cell.isNone) +
      c.countP Option.isNone = c.length := by
    apply countP_tri
    intro a
    cases a with
    | none => simp [validCell]
    | some v => cases h : validCell mn mx (some v) <;> simp [h]
  refine ⟨?_, by simp [validate_physical_limits], ?_, ?_, hnull⟩
  · rw [hvalid, hinvalid, hnull]; exact hsum
  · rw [hvalid, hvalid']
  · rw [hinvalid, hinvalid']

/-- The claim C3: get_recommendation classifies exactly by the bands
index ≥ 80 (Adequate), 60 ≤ index < 80 (Partially Adequate), index < 60
(Inadequate), each with its fixed description, and in particular at the
boundary inputs 80 and 60. -/
theorem C3_recommendation_bands (x : ℚ) :
    ((get_recommendation x).1 = "Adequado" ↔ 80 ≤ x) ∧
    ((get_recommendation x).1 = "Parcialmente Adequado" ↔ 60 ≤ x ∧ x < 80) ∧
    ((get_recommendation x).1 = "Inadequado" ↔ x < 60) ∧
    ((get_recommendation x).1 = "Adequado" →
      (get_recommendation x).2 = "Dados de qualidade adequada para uso científico") ∧
    ((get_recommendation x).1 = "Parcialmente Adequado" →
      (get_recommendation x).2 =
        "Dados com qualidade moderada, recomenda-se revisão antes do uso") ∧
    ((get_recommendation x).1 = "Inadequado" →
      (get_recommendation x).2 = "Dados com qualidade insuficiente para uso científico") ∧
    get_recommendation 80 =
      ("Adequado", "Dados de qualidade adequada para uso científico") ∧
    get_recommendation 60 =
      ("Parcialmente Adequado",
        "Dados com qualidade moderada, recomenda-se revisão antes do uso") := by
  have hAP : ("Adequado" : String) ≠ "Parcialmente Adequado" := by decide
  have hAI : ("Adequado" : String) ≠ "Inadequado" := by decide
  have hPI : ("Parcialmente Adequado" : String) ≠ "Inadequado" := by decide
  have h80 : get_recommendation 80 =
      ("Adequado", "Dados de qualidade adequada para uso científico") := by
    unfold get_recommendation RECOMMENDATION_CRITERIA_adequado
    norm_num
  have h60 : get_recommendation 60 =
      ("Parcialmente Adequado",
        "Dados com qualidade moderada, recomenda-se revisão antes do uso") := by
    unfold get_recommendation RECOMMENDATION_CRITERIA_adequado
      RECOMMENDATION_CRITERIA_parcialmente_adequado
    norm_num
  rcases le_or_lt 80 x with hx | hx
  · have hrec : get_recommendation x =
        ("Adequado", "Dados de qualidade adequada para uso científico") := by
      unfold get_recommendation RECOMMENDATION_CRITERIA_adequado
      rw [if_pos hx]
    refine ⟨?_, ?_, ?_, ?_, ?_, ?_, h80, h60⟩
    · exact iff_of_true (by rw [hrec]) hx
    · refine iff_of_false (by rw [hrec]; exact hAP) ?_
      rintro ⟨-, hlt⟩; linarith
    · exact iff_of_false (by rw [hrec]; exact hAI) (by linarith)
    · intro _; rw [hrec]
    · intro h; rw [hrec] at h; exact absurd h hAP
    · intro h; rw [hrec] at h; exact absurd h hAI
  · rcases le_or_lt 60 x with hx' | hx'
    · have hrec : get_recommendation x =
          ("Parcialmente Adequado",
            "Dados com qualidade moderada, recomenda-se revisão antes do uso") := by
        unfold get_recommendation RECOMMENDATION_CRITERIA_adequado
          RECOMMENDATION_CRITERIA_parcialmente_adequado
        rw [if_neg (by linarith), if_pos hx']
      refine ⟨?_, ?_, ?_, ?_, ?_, ?_, h80, h60⟩
      · refine iff_of_false (by rw [hrec]; exact hAP.symm) ?_
        linarith
      · exact iff_of_true (by rw [hrec]) ⟨hx', hx⟩
      · exact iff_of_false (by rw [hrec]; exact hPI) (by linarith)
      · intro h; rw [hrec] at h; exact absurd h.symm hAP
      · intro _; rw [hrec]
      · intro h; rw [hrec] at h; exact absurd h hPI
    · have hrec : get_recommendation x =
          ("Inadequado", "Dados com qualidade insuficiente para uso científico") := by
        unfold get_recommendation RECOMMENDATION_CRITERIA_adequado
          RECOMMENDATION_CRITERIA_parcialmente_adequado
        rw [if_neg (by linarith), if_neg (by linarith)]
      refine ⟨?_, ?_, ?_, ?_, ?_, ?_, h80, h60⟩
      · refine iff_of_false (by rw [hrec]; exact hAI.symm) ?_
        linarith
      · refine iff_of_false (by rw [hrec]; exact hPI.symm) ?_
        rintro ⟨hge, -⟩; linarith
      · exact iff_of_true (by rw [hrec]) hx'
      · intro h; rw [hrec] at h; exact absurd h.symm hAI
      · intro h; rw [hrec] at h; exact absurd h.symm hPI
      · intro _; rw [hrec]

/-- Witness for C3 at the boundary input 80. -/
theorem C3_recommendation_bands_witness :
    (get_recommendation 80).1 = "Adequado" :=
  ((C3_recommendation_bands 80).1).2 (by norm_num)

/-! QualityMetricsCalculator metric computations (src/modules/quality_metrics.py). -/

/-- completeness_percentage of calculate_completeness:
`(non_null_count / total_count) * 100` with `total_count = len(self.df)`. -/
def completeness_percentage (c : Col) : ℚ :=
  (nonNullCount c : ℚ) / (c.length : ℚ) * 100

/-- validity_percentage of calculate_validity:
`valid_count / (valid_count + invalid_count) * 100` when there is at least one
non-null value counted, else 0. -/
def validity_percentage (r : ValidationResult) : ℚ :=
  if 0 < r.valid_count + r.invalid_count then
    (r.valid_count : ℚ) / ((r.valid_count : ℚ) + (r.invalid_count : ℚ)) * 100
  else 0

/-- Mean of a list of values (pandas `Series.mean()`). -/
def listMean (l : List ℚ) : ℚ := l.sum / (l.length : ℚ)

/-- Sum of squared deviations from the mean. -/
def sqDevSum (l : List ℚ) : ℚ := (l.map fun x => (x - listMean l) ^ 2).sum

/-- Square of pandas `Series.std()`, which uses ddof = 1 (sample standard
deviation): variance with denominator `n - 1`.  The standard deviation itself
is an irrational square root, so the code's comparisons against it are
modelled by their exactly equivalent squared forms. -/
def sampleVariance (l : List ℚ) : ℚ := sqDevSum l / ((l.length : ℚ) - 1)

/-- Anomaly mask `np.abs((data - mean) / std) > 3` of calculate_consistency in
squared form: `|x - mean| / std > 3  ↔  (x - mean)^2 > 9 * std^2` on the
branch where `std > 0`. -/
def anomaly_mask (l : List ℚ) : List Bool :=
  l.map fun x => decide (9 * sampleVariance l < (x - listMean l) ^ 2)

/-- anomaly_count of calculate_consistency: 0 when `std == 0`, else the number
of flagged values. -/
def anomaly_count (l : List ℚ) : ℕ :=
  if sampleVariance l = 0 then 0 else (anomaly_mask l).count true

/-- Per-variable result of calculate_consistency.  The `insufficient_data`
flag records the presence of the `'message': 'Dados insuficientes'` entry;
the `mean`/`std`/`anomaly_percentage` entries are not needed by any claim and
are omitted. -/
structure ConsistencyResult where
  consistency_percentage : ℚ
  anomaly_count : ℕ
  insufficient_data : Bool
  deriving Repr, DecidableEq

/-- QualityMetricsCalculator.calculate_consistency for one column: requires at
least 2 non-null values, else 0 with the insufficient-data message;
`consistency = (len(data) - anomaly_count) / len(data) * 100`. -/
def calculate_consistency (c : Col) : ConsistencyResult :=
  let data := dropna c
  if data.length < 2 then ⟨0, 0, true⟩
  else
    ⟨((data.length : ℚ) - (anomaly_count data : ℚ)) / (data.length : ℚ) * 100,
      anomaly_count data, false⟩

/-- Per-variable entry of calculate_quality_index. -/
structure QualityIndexEntry where
  quality_index : ℚ
  completeness_score : ℚ
  validity_score : ℚ
  consistency_score : ℚ
  deriving Repr, DecidableEq

/-- QualityMetricsCalculator.calculate_quality_index for one column.
`limits` is the PHYSICAL_LIMITS entry for the column: when it is none the
column has no ValidationResult, calculate_validity produces no entry, and
`validity.get(col, {}).get('validity_percentage', 0)` yields 0.  The scores
are `min(pct, 100)` and the index the weighted sum with
QUALITY_INDEX_WEIGHTS. -/
def calculate_quality_index_entry (limits : Option (ℚ × ℚ)) (c : Col) :
    QualityIndexEntry :=
  let comp_pct := completeness_percentage c
  let valid_pct :=
    match limits with
    | none => 0
    | some (mn, mx) => validity_percentage (validate_physical_limits mn mx c)
  let cons_pct := (calculate_consistency c).consistency_percentage
  let comp_score := min comp_pct 100
  let valid_score := min valid_pct 100
  let cons_score := min cons_pct 100
  { quality_index := comp_score * QUALITY_INDEX_WEIGHTS.1 +
      valid_score * QUALITY_INDEX_WEIGHTS.2.1 +
      cons_score * QUALITY_INDEX_WEIGHTS.2.2
  , completeness_score := comp_score
  , validity_score := valid_score
  , consistency_score := cons_score }

/-- A variable of the observation table as the metrics engine sees it: its
configured physical limits (none when absent from PHYSICAL_LIMITS) and its
column.  Column names play no role in the claims. -/
abbrev Variable := Option (ℚ × ℚ) × Col

/-- Per-variable quality indices over all non-date columns, in column order
(the `self.metrics` dictionary filled by calculate_quality_index). -/
def quality_indices (tbl : List Variable) : List QualityIndexEntry :=
  tbl.map fun v => calculate_quality_index_entry v.1 v.2

/-- QualityMetricsCalculator.get_overall_quality_index: `np.mean` of the
quality_index of every entry of self.metrics, 0 when there are none. -/
def overall_quality_index (tbl : List Variable) : ℚ :=
  let qis := (quality_indices tbl).map QualityIndexEntry.quality_index
  if qis.length = 0 then 0 else qis.sum / (qis.length : ℚ)

/-! Nonnegativity of the three percentages, needed to identify the code's
`min(pct, 100)` with the spec's clamp to [0, 100]. -/

lemma completeness_percentage_nonneg (c : Col) : 0 ≤ completeness_percentage c := by
  unfold completeness_percentage
  positivity

lemma validity_percentage_nonneg (r : ValidationResult) :
    0 ≤ validity_percentage r := by
  unfold validity_percentage
  split
  · positivity
  · exact le_refl 0

lemma anomaly_count_le_length (l : List ℚ) : anomaly_count l ≤ l.length := by
  unfold anomaly_count
  split
  · exact Nat.zero_le _
  · calc (anomaly_mask l).count true ≤ (anomaly_mask l).length :=
        List.count_le_length true (anomaly_mask l)
    _ = l.length := by simp [anomaly_mask]

lemma consistency_percentage_nonneg (c : Col) :
    0 ≤ (calculate_consistency c).consistency_percentage := by
  by_cases hlen : (dropna c).length < 2
  · simp [calculate_consistency, hlen]
  · have ha : anomaly_count (dropna c) ≤ (dropna c).length :=
      anomaly_count_le_length (dropna c)
    have h1 : (0 : ℚ) ≤ ((dropna c).length : ℚ) - (anomaly_count (dropna c) : ℚ) := by
      have h2 := (Nat.cast_le (α := ℚ)).mpr ha
      linarith
    have h2 : (0 : ℚ) ≤ ((dropna c).length : ℚ) := by positivity
    have h3 := div_nonneg h1 h2
    simp only [calculate_consistency, hlen, if_false]
    linarith

/-- Clamp to the interval [0, 100], as the specification words it. -/
def clampScore (x : ℚ) : ℚ := max 0 (min x 100)

/-- The claim C1: every quality index entry has
quality_index = completeness_score * 0.4 + validity_score * 0.4 +
consistency_score * 0.2 under the default weights, where each score is the
corresponding percentage clamped to [0, 100]. -/
theorem C1_quality_index_weighted_sum (limits : Option (ℚ × ℚ)) (c : Col) :
    (calculate_quality_index_entry limits c).quality_index =
      (calculate_quality_index_entry limits c).completeness_score * (2/5) +
      (calculate_quality_index_entry limits c).validity_score * (2/5) +
      (calculate_quality_index_entry limits c).consistency_score * (1/5) ∧
    (calculate_quality_index_entry limits c).completeness_score =
      clampScore (completeness_percentage c) ∧
    (calculate_quality_index_entry limits c).validity_score =
      clampScore (match limits with
        | none => 0
        | some (mn, mx) => validity_percentage (validate_physical_limits mn mx c)) ∧
    (calculate_quality_index_entry limits c).consistency_score =
      clampScore (calculate_consistency c).consistency_percentage := by
  have hclamp : ∀ x : ℚ, 0 ≤ x → clampScore x = min x 100 := by
    intro x hx
    unfold clampScore
    exact max_eq_right (le_min hx (by norm_num))
  have hvpct : 0 ≤ (match limits with
      | none => (0 : ℚ)
      | some (mn, mx) => validity_percentage (validate_physical_limits mn mx c)) := by
    match limits with
    | none => exact le_refl 0
    | some (mn, mx) => exact validity_percentage_nonneg _
  refine ⟨rfl, ?_, ?_, ?_⟩
  · rw [hclamp _ (completeness_percentage_nonneg c)]; rfl
  · rw [hclamp _ hvpct]
    match limits with
    | none => rfl
    | some (mn, mx) => rfl
  · rw [hclamp _ (consistency_percentage_nonneg c)]; rfl

/-! Lemmas about all-null columns, used for claim C2. -/

lemma dropna_length_eq_countP (c : Col) :
    (dropna c).length = c.countP fun cell => cell.isSome := by
  induction c with
  | nil => simp [dropna]
  | cons hd tl ih =>
    cases hd <;> simp [dropna, List.countP_cons, List.filterMap_cons] at ih ⊢ <;>
      omega

lemma all_none_of_nonNullCount_zero (c : Col) (h : nonNullCount c = 0) :
    ∀ cell ∈ c, cell = none := by
  intro cell hmem
  have hcount : c.countP (fun cell => cell.isSome) = 0 := by
    rw [← dropna_length_eq_countP]; exact h
  have := List.countP_eq_zero.mp hcount cell hmem
  cases cell with
  | none => rfl
  | some v => simp at this

lemma dropna_nil_of_nonNullCount_zero (c : Col) (h : nonNullCount c = 0) :
    dropna c = [] :=
  List.length_eq_zero.mp h

lemma quality_entry_zero_of_all_null (limits : Option (ℚ × ℚ)) (c : Col)
    (h : nonNullCount c = 0) :
    calculate_quality_index_entry limits c =
      ⟨0, 0, 0, 0⟩ ∧ calculate_consistency c = ⟨0, 0, true⟩ := by
  have hcomp : completeness_percentage c = 0 := by
    unfold completeness_percentage
    rw [h]
    simp
  have hcons : calculate_consistency c = ⟨0, 0, true⟩ := by
    unfold calculate_consistency
    rw [dropna_nil_of_nonNullCount_zero c h]
    norm_num
  have hvalid : ∀ mn mx : ℚ,
      validity_percentage (validate_physical_limits mn mx c) = 0 := by
    intro mn mx
    have hzero : (validate_physical_limits mn mx c).valid_count = 0 ∧
        (validate_physical_limits mn mx c).invalid_count = 0 := by
      constructor
      · show (valid_mask mn mx c).count true = 0
        rw [valid_mask, count_true_map]
        apply List.countP_eq_zero.mpr
        intro cell hmem
        rw [all_none_of_nonNullCount_zero c h cell hmem]
        simp [validCell]
      · show ((valid_mask mn mx c).zip (null_mask c)).countP
            (fun p => !p.1 && !p.2) = 0
        rw [valid_mask, null_mask]
        refine (countP_zip_map (validCell mn mx) Option.isNone
          (fun a b => !a && !b) c).trans ?_
        apply List.countP_eq_zero.mpr
        intro cell hmem
        rw [all_none_of_nonNullCount_zero c h cell hmem]
        simp [validCell]
    unfold validity_percentage
    rw [hzero.1, hzero.2]
    norm_num
  refine ⟨?_, hcons⟩
  unfold calculate_quality_index_entry
  have hvpct : (match limits with
      | none => (0 : ℚ)
      | some (mn, mx) => validity_percentage (validate_physical_limits mn mx c)) = 0 := by
    match limits with
    | none => rfl
    | some (mn, mx) => exact hvalid mn mx
  rw [hcomp, hvpct, hcons]
  norm_num [QUALITY_INDEX_WEIGHTS]

/-- Overall quality index as the specification words it for claim C2,
following the spec's words for comparison with `overall_quality_index`
(which follows the code): the mean of the quality index over those variables
only that have at least one non-null value, variables with zero non-null
values being excluded from the denominator. -/
def spec_overall_quality_index_excluding (tbl : List Variable) : ℚ :=
  let qis := (tbl.filter fun v => 0 < nonNullCount v.2).map
    fun v => (calculate_quality_index_entry v.1 v.2).quality_index
  if qis.length = 0 then 0 else qis.sum / (qis.length : ℚ)

/-- Concrete two-variable table for the C2 counterexample: one constant fully
populated variable with no configured limits, one entirely null variable. -/
def c2table : List Variable :=
  [(none, [some 10, some 10]), (none, [none, none])]

/-- Counterexample to the claim C2 as stated: on c2table the code's overall
quality index is 30 (the all-null variable is averaged in as zero), while the
mean over the variables that have a computed index is 60, so the all-null
variable is not excluded from the denominator. -/
theorem C2_counterexample_not_excluded :
    overall_quality_index c2table = 30 ∧
    spec_overall_quality_index_excluding c2table = 60 ∧
    (30 : ℚ) ≠ 60 := by
  have hmean : listMean [10, 10] = 10 := by norm_num [listMean]
  have hsq : sqDevSum [10, 10] = 0 := by
    simp [sqDevSum, hmean]
  have hvar : sampleVariance [10, 10] = 0 := by
    simp [sampleVariance, hsq]
  have hac : anomaly_count [10, 10] = 0 := by
    simp [anomaly_count, hvar]
  have hdrop : dropna [some 10, some 10] = [10, 10] := rfl
  have hcons : calculate_consistency [some 10, some 10] = ⟨100, 0, false⟩ := by
    rw [calculate_consistency]
    rw [hdrop]
    norm_num [hac]
  have hcomp : completeness_percentage [some 10, some 10] = 100 := by
    have h2 : nonNullCount ([some 10, some 10] : Col) = 2 := rfl
    rw [completeness_percentage, h2]
    norm_num
  have hqi1 : calculate_quality_index_entry none [some 10, some 10] =
      ⟨60, 100, 0, 100⟩ := by
    rw [calculate_quality_index_entry]
    rw [hcomp, hcons]
    norm_num [QUALITY_INDEX_WEIGHTS]
  have hnn : nonNullCount ([none, none] : Col) = 0 := rfl
  have hqi2 : calculate_quality_index_entry none [none, none] = ⟨0, 0, 0, 0⟩ :=
    (quality_entry_zero_of_all_null none [none, none] hnn).1
  refine ⟨?_, ?_, by norm_num⟩
  · rw [overall_quality_index, quality_indices, c2table]
    norm_num [hqi1, hqi2, List.sum_cons]
  · rw [spec_overall_quality_index_excluding, c2table]
    have hfil : List.filter (fun v => decide (0 < nonNullCount v.2))
        [((none : Option (ℚ × ℚ)), ([some 10, some 10] : Col)),
          ((none : Option (ℚ × ℚ)), ([none, none] : Col))] =
        [((none : Option (ℚ × ℚ)), ([some 10, some 10] : Col))] := rfl
    rw [hfil]
    norm_num [hqi1, List.sum_cons]

/-- The claim C2 as amended: a variable with zero non-null values gets
completeness, validity and consistency 0, with the explicit insufficient-data
marker on the consistency entry, and its quality index 0 is included in the
overall average: the numerator gains nothing from it but the denominator
counts it. -/
theorem C2_all_null_variable_included (limits : Option (ℚ × ℚ)) (c : Col)
    (h : nonNullCount c = 0) (pre post : List Variable) :
    calculate_quality_index_entry limits c = ⟨0, 0, 0, 0⟩ ∧
    calculate_consistency c = ⟨0, 0, true⟩ ∧
    overall_quality_index (pre ++ (limits, c) :: post) =
      (((quality_indices pre).map QualityIndexEntry.quality_index).sum +
          ((quality_indices post).map QualityIndexEntry.quality_index).sum) /
        ((pre.length + post.length + 1 : ℕ) : ℚ) := by
  obtain ⟨hentry, hcons⟩ := quality_entry_zero_of_all_null limits c h
  refine ⟨hentry, hcons, ?_⟩
  unfold overall_quality_index quality_indices
  rw [List.map_append, List.map_cons, hentry, List.map_append, List.map_cons]
  have hlen : ((pre.map fun v => calculate_quality_index_entry v.1 v.2).map
        QualityIndexEntry.quality_index ++
      QualityIndexEntry.quality_index ⟨0, 0, 0, 0⟩ ::
        (post.map fun v => calculate_quality_index_entry v.1 v.2).map
          QualityIndexEntry.quality_index).length =
      pre.length + post.length + 1 := by
    simp
    omega
  rw [if_neg (by rw [hlen]; omega)]
  rw [hlen]
  congr 1
  simp [List.sum_append]

/-- Witness for C2_all_null_variable_included on a concrete all-null column
next to one populated variable. -/
theorem C2_all_null_variable_included_witness :
    nonNullCount [none, none] = 0 ∧
    (calculate_quality_index_entry none [none, none] = ⟨0, 0, 0, 0⟩ ∧
      calculate_consistency [none, none] = ⟨0, 0, true⟩ ∧
      overall_quality_index ([] ++ (none, ([none, none] : Col)) ::
          [((none : Option (ℚ × ℚ)), ([some 10, some 10] : Col))]) =
        (((quality_indices []).map QualityIndexEntry.quality_index).sum +
            ((quality_indices
              [((none : Option (ℚ × ℚ)), ([some 10, some 10] : Col))]).map
                QualityIndexEntry.quality_index).sum) /
          ((List.length ([] : List Variable) +
            List.length [((none : Option (ℚ × ℚ)), ([some 10, some 10] : Col))] +
              1 : ℕ) : ℚ)) :=
  ⟨by decide,
    C2_all_null_variable_included none [none, none] (by decide) []
      [((none : Option (ℚ × ℚ)), ([some 10, some 10] : Col))]⟩

/-- The claim C10: a non-date column with no configured physical range still
gets a quality index entry; its validity score defaults to 0, its quality
index therefore reduces to the completeness and consistency terms alone, and
the entry enters the overall average numerator and denominator. -/
theorem C10_unranged_variable_still_scored (c : Col) (pre post : List Variable) :
    (calculate_quality_index_entry none c).validity_score = 0 ∧
    (calculate_quality_index_entry none c).quality_index =
      (calculate_quality_index_entry none c).completeness_score * (2/5) +
        (calculate_quality_index_entry none c).consistency_score * (1/5) ∧
    quality_indices (pre ++ (none, c) :: post) =
      quality_indices pre ++
        calculate_quality_index_entry none c :: quality_indices post ∧
    overall_quality_index (pre ++ (none, c) :: post) =
      (((quality_indices pre).map QualityIndexEntry.quality_index).sum +
          (calculate_quality_index_entry none c).quality_index +
          ((quality_indices post).map QualityIndexEntry.quality_index).sum) /
        ((pre.length + post.length + 1 : ℕ) : ℚ) := by
  have hvs : (calculate_quality_index_entry none c).validity_score = 0 := by
    show min 0 100 = (0 : ℚ)
    norm_num
  refine ⟨hvs, ?_, ?_, ?_⟩
  · have h1 : (calculate_quality_index_entry none c).quality_index =
        (min (completeness_percentage c) 100) * (2/5) + (min (0 : ℚ) 100) * (2/5) +
          (min (calculate_consistency c).consistency_percentage 100) * (1/5) := rfl
    have h2 : (calculate_quality_index_entry none c).completeness_score =
        min (completeness_percentage c) 100 := rfl
    have h3 : (calculate_quality_index_entry none c).consistency_score =
        min (calculate_consistency c).consistency_percentage 100 := rfl
    rw [h1, h2, h3]
    norm_num
  · unfold quality_indices
    rw [List.map_append, List.map_cons]
  · unfold overall_quality_index quality_indices
    rw [List.map_append, List.map_cons, List.map_append, List.map_cons]
    have hlen : ((pre.map fun v => calculate_quality_index_entry v.1 v.2).map
          QualityIndexEntry.quality_index ++
        QualityIndexEntry.quality_index (calculate_quality_index_entry none c) ::
          (post.map fun v => calculate_quality_index_entry v.1 v.2).map
            QualityIndexEntry.quality_index).length =
        pre.length + post.length + 1 := by
      simp
      omega
    rw [if_neg (by rw [hlen]; omega)]
    rw [hlen]
    congr 1
    simp [List.sum_append]
    ring

/-! Claim C5: which standard deviation does calculate_consistency use.
`data.std()` in pandas defaults to ddof = 1 (sample standard deviation); the
specification says population mean/std.  The following definitions follow the
spec's words, for comparison with `sampleVariance`/`anomaly_count`, which
follow the code. -/

/-- Population variance (ddof = 0, denominator n), as the spec's words
"population mean/std" prescribe for claim C5. -/
def populationVariance (l : List ℚ) : ℚ := sqDevSum l / (l.length : ℚ)

/-- Anomaly mask per the spec's words for claim C5: absolute z-score with
population std exceeds 3, in the equivalent squared form. -/
def population_anomaly_mask (l : List ℚ) : List Bool :=
  l.map fun x => decide (9 * populationVariance l < (x - listMean l) ^ 2)

/-- Anomaly count per the spec's words for claim C5 (population std, count 0
when the std is 0). -/
def population_anomaly_count (l : List ℚ) : ℕ :=
  if populationVariance l = 0 then 0 else (population_anomaly_mask l).count true

/-- Non-null values of the C5 counterexample column: ten mildly spread values
and one extreme value 10 whose population z-score exceeds 3 while its sample
(ddof = 1) z-score does not. -/
def c5vals : List ℚ := [1, 1, 1, 1, 1, -1, -1, -1, -1, -1, 10]

/-- The C5 counterexample column. -/
def c5data : Col := c5vals.map some

lemma c5_mean : listMean c5vals = 10 / 11 := by
  rw [listMean]
  norm_num [c5vals]

lemma c5_sqDevSum : sqDevSum c5vals = 1110 / 11 := by
  rw [sqDevSum, c5_mean]
  norm_num [c5vals]

lemma c5_sampleVariance : sampleVariance c5vals = 111 / 11 := by
  rw [sampleVariance, c5_sqDevSum]
  norm_num [c5vals]

lemma c5_populationVariance : populationVariance c5vals = 1110 / 121 := by
  rw [populationVariance, c5_sqDevSum]
  norm_num [c5vals]

lemma c5_anomaly_count : anomaly_count c5vals = 0 := by
  have hne : sampleVariance c5vals ≠ 0 := by
    rw [c5_sampleVariance]; norm_num
  rw [anomaly_count, if_neg hne, anomaly_mask, c5_sampleVariance, c5_mean]
  norm_num [c5vals, List.count_cons]

lemma c5_population_anomaly_count : population_anomaly_count c5vals = 1 := by
  have hne : populationVariance c5vals ≠ 0 := by
    rw [c5_populationVariance]; norm_num
  rw [population_anomaly_count, if_neg hne, population_anomaly_mask,
    c5_populationVariance, c5_mean]
  norm_num [c5vals, List.count_cons]

/-- Counterexample to the claim C5 as stated: on c5data the code flags no
anomaly (sample std, ddof 1), while the population-std z-score rule of the
claim flags exactly one value, so the code does not flag exactly the values
whose population z-score exceeds 3. -/
theorem C5_counterexample_population_std :
    (calculate_consistency c5data).anomaly_count = 0 ∧
    population_anomaly_count (dropna c5data) = 1 ∧ (0 : ℕ) ≠ 1 := by
  have hdrop : dropna c5data = c5vals := rfl
  have hcons : (calculate_consistency c5data).anomaly_count = 0 := by
    show (if (c5vals.length < 2) then (⟨0, 0, true⟩ : ConsistencyResult)
      else ⟨((c5vals.length : ℚ) - (anomaly_count c5vals : ℚ)) /
          (c5vals.length : ℚ) * 100, anomaly_count c5vals, false⟩).anomaly_count = 0
    rw [if_neg (by decide)]
    exact c5_anomaly_count
  refine ⟨hcons, ?_, by decide⟩
  rw [hdrop]
  exact c5_population_anomaly_count

lemma sum_zero_all_zero (l : List ℚ) (hnn : ∀ x ∈ l, 0 ≤ x) (hsum : l.sum = 0) :
    ∀ x ∈ l, x = 0 := by
  induction l with
  | nil => intro x hx; simp at hx
  | cons hd tl ih =>
    have hhd : 0 ≤ hd := hnn hd (List.mem_cons_self hd tl)
    have htl : 0 ≤ tl.sum := List.sum_nonneg fun x hx => hnn x (List.mem_cons_of_mem hd hx)
    rw [List.sum_cons] at hsum
    have hhd0 : hd = 0 := by linarith
    have htl0 : tl.sum = 0 := by linarith
    intro x hx
    rcases List.mem_cons.mp hx with h | h
    · rw [h, hhd0]
    · exact ih (fun y hy => hnn y (List.mem_cons_of_mem hd hy)) htl0 x h

lemma anomaly_count_eq_countP (l : List ℚ) (h : 2 ≤ l.length) :
    anomaly_count l =
      l.countP fun x => decide (9 * sampleVariance l < (x - listMean l) ^ 2) := by
  by_cases hv : sampleVariance l = 0
  · rw [anomaly_count, if_pos hv]
    symm
    apply List.countP_eq_zero.mpr
    intro x hx
    have hden : (0 : ℚ) < (l.length : ℚ) - 1 := by
      have : (2 : ℚ) ≤ (l.length : ℚ) := by exact_mod_cast h
      linarith
    have hsq : sqDevSum l = 0 := by
      have hv' := hv
      rw [sampleVariance, div_eq_zero_iff] at hv'
      rcases hv' with h1 | h1
      · exact h1
      · exact absurd h1 (by linarith)
    have hx0 : (x - listMean l) ^ 2 = 0 := by
      have hmem : (x - listMean l) ^ 2 ∈ l.map fun y => (y - listMean l) ^ 2 :=
        List.mem_map_of_mem (fun y => (y - listMean l) ^ 2) hx
      exact sum_zero_all_zero _ (by
        intro z hz
        obtain ⟨y, -, rfl⟩ := List.mem_map.mp hz
        positivity) hsq _ hmem
    rw [hv, hx0]
    norm_num
  · rw [anomaly_count, if_neg hv, anomaly_mask, count_true_map]

/-- The claim C5 as amended: with at least 2 non-null values,
calculate_consistency flags as anomalies exactly the non-null values whose
absolute z-score computed with the mean and the SAMPLE standard deviation
(pandas std, ddof = 1) exceeds 3; consistency = (n - anomalies) / n * 100;
and a zero standard deviation yields anomaly count 0. -/
theorem C5_consistency_sample_std (c : Col) (h : 2 ≤ (dropna c).length) :
    (calculate_consistency c).insufficient_data = false ∧
    (calculate_consistency c).anomaly_count =
      (dropna c).countP (fun x =>
        decide (9 * sampleVariance (dropna c) < (x - listMean (dropna c)) ^ 2)) ∧
    (calculate_consistency c).consistency_percentage =
      (((dropna c).length : ℚ) - ((calculate_consistency c).anomaly_count : ℚ)) /
        ((dropna c).length : ℚ) * 100 ∧
    (sampleVariance (dropna c) = 0 → (calculate_consistency c).anomaly_count = 0) := by
  have hnot : ¬((dropna c).length < 2) := by omega
  have hcons : calculate_consistency c =
      ⟨(((dropna c).length : ℚ) - (anomaly_count (dropna c) : ℚ)) /
          ((dropna c).length : ℚ) * 100, anomaly_count (dropna c), false⟩ := by
    show (if ((dropna c).length < 2) then (⟨0, 0, true⟩ : ConsistencyResult)
      else ⟨(((dropna c).length : ℚ) - (anomaly_count (dropna c) : ℚ)) /
          ((dropna c).length : ℚ) * 100, anomaly_count (dropna c), false⟩) = _
    rw [if_neg hnot]
  rw [hcons]
  refine ⟨rfl, anomaly_count_eq_countP (dropna c) h, rfl, ?_⟩
  intro hv
  show anomaly_count (dropna c) = 0
  rw [anomaly_count, if_pos hv]

/-- Witness for C5_consistency_sample_std on the concrete column c5data. -/
theorem C5_consistency_sample_std_witness :
    2 ≤ (dropna c5data).length ∧
    (calculate_consistency c5data).insufficient_data = false :=
  ⟨by decide, (C5_consistency_sample_std c5data (by decide)).1⟩

/-! DataValidator.validate_date_sequence (src/modules/data_validator.py).
Dates are integer day numbers; the Data column is a list of nullable dates
(`pd.to_datetime(..., errors='coerce')` leaves NaT for unparseable dates). -/

/-- Pandas `Series.diff()` on the non-null dates followed by `.dt.days`:
the first entry is NaT/NaN (none), entry i is dates[i] - dates[i-1]. -/
def date_diffs (dates : List ℤ) : List (Option ℤ) :=
  match dates with
  | [] => []
  | _ :: _ => none :: (dates.zip dates.tail).map fun p => some (p.2 - p.1)

/-- Pandas elementwise `diff >= 0` on the float days: comparison against the
NaN entry evaluates to False. -/
def diff_ge_zero : Option ℤ → Bool
  | none => false
  | some d => decide (0 ≤ d)

/-- Pandas elementwise `diff <= 0`: comparison against NaN is False. -/
def diff_le_zero : Option ℤ → Bool
  | none => false
  | some d => decide (d ≤ 0)

/-- The code's `is_sorted` expression:
`(dates.diff().dt.days >= 0).all() or (dates.diff().dt.days <= 0).all()`. -/
def is_sorted (dates : List ℤ) : Bool :=
  ((date_diffs dates).all diff_ge_zero) || ((date_diffs dates).all diff_le_zero)

/-- A recorded gap: the date at the offending position and the signed
day difference to the previous observation (`int(diff)`). -/
structure DateGap where
  date : ℤ
  gap_days : ℤ
  deriving Repr, DecidableEq

/-- The gap loop: `for idx, diff in enumerate(date_diffs)`, recording
`{'date': dates.iloc[idx], 'gap_days': int(diff)}` whenever the diff is
non-null and differs from both the expected step 1 and 0. -/
def date_gaps (dates : List ℤ) : List DateGap :=
  ((date_diffs dates).zip dates).filterMap fun p =>
    match p.1 with
    | none => none
    | some d => if d ≠ 1 ∧ d ≠ 0 then some ⟨p.2, d⟩ else none

/-- Result dictionary of validate_date_sequence.  The `date_range`,
`expected_days` and `actual_days` entries are not needed by any claim and are
omitted. -/
structure DateSequenceReport where
  is_sorted_flag : Bool
  total_dates : ℕ
  gaps : List DateGap
  gap_count : ℕ
  deriving Repr, DecidableEq

/-- DataValidator.validate_date_sequence: drops null dates, requires at
least 2 of them (none models the `{'valid': False, 'message': 'Dados
insuficientes'}` early return). -/
def validate_date_sequence (dataCol : List (Option ℤ)) :
    Option DateSequenceReport :=
  let dates := dataCol.filterMap id
  if dates.length < 2 then none
  else some ⟨is_sorted dates, dates.length, date_gaps dates, (date_gaps dates).length⟩

/-- The claim C6 is wrong about the code: whenever validate_date_sequence
returns a report (at least 2 non-null dates), is_sorted is false — the first
entry of `dates.diff()` is NaN, `NaN >= 0` and `NaN <= 0` are both False, so
neither `.all()` can hold, even for a strictly ascending date sequence.
This contradicts the claimed equivalence with monotonicity. -/
theorem C6_is_sorted_always_false (dataCol : List (Option ℤ))
    (r : DateSequenceReport) (h : validate_date_sequence dataCol = some r) :
    r.is_sorted_flag = false := by
  have hlen : ¬((dataCol.filterMap id).length < 2) := by
    by_contra hcon
    rw [validate_date_sequence] at h
    simp only [if_pos hcon] at h
    exact Option.noConfusion h
  rw [validate_date_sequence] at h
  simp only [if_neg hlen, Option.some.injEq] at h
  have hsorted : is_sorted (dataCol.filterMap id) = false := by
    rcases hd : dataCol.filterMap id with - | ⟨d0, rest⟩
    · rw [hd] at hlen; simp at hlen
    · rw [is_sorted, date_diffs]
      simp only [List.all_cons]
      simp [diff_ge_zero, diff_le_zero]
  rw [← h]
  exact hsorted

/-- Witness for C6_is_sorted_always_false: even on the ascending two-day
column the code reports is_sorted false. -/
theorem C6_is_sorted_always_false_witness :
    validate_date_sequence [some 0, some 1] = some ⟨false, 2, [], 0⟩ ∧
    (⟨false, 2, [], 0⟩ : DateSequenceReport).is_sorted_flag = false :=
  ⟨by decide, C6_is_sorted_always_false [some 0, some 1] ⟨false, 2, [], 0⟩ (by decide)⟩

/-- Counterexample to the claim C7 as stated: on the dates D1, D1+1, D1+3,
D1+4 (with D1 = 0) the single recorded gap has gap_days 2, the day delta,
not 3. -/
theorem C7_counterexample_gap_size :
    date_gaps [0, 1, 3, 4] = [⟨3, 2⟩] ∧
    ¬(∃ g ∈ date_gaps [0, 1, 3, 4], g.gap_days = 3) := by
  decide

/-- The claim C7 as amended: for every start date d1, the dates
[d1, d1+1, d1+3, d1+4] produce exactly one gap, located at the third date,
with gap_days 2 (the signed day delta between the second and third dates). -/
theorem C7_single_gap_of_size_two (d1 : ℤ) :
    ∃ r, validate_date_sequence
        [some d1, some (d1 + 1), some (d1 + 3), some (d1 + 4)] = some r ∧
      r.gaps = [⟨d1 + 3, 2⟩] ∧ r.gap_count = 1 := by
  have hdrop : ([some d1, some (d1 + 1), some (d1 + 3), some (d1 + 4)] :
      List (Option ℤ)).filterMap id = [d1, d1 + 1, d1 + 3, d1 + 4] := rfl
  have hdiffs : date_diffs [d1, d1 + 1, d1 + 3, d1 + 4] =
      [none, some 1, some 2, some 1] := by
    rw [date_diffs]
    simp only [List.tail_cons, List.zip_cons_cons, List.zip_nil_right,
      List.map_cons, List.map_nil]
    norm_num
  have hgaps : date_gaps [d1, d1 + 1, d1 + 3, d1 + 4] = [⟨d1 + 3, 2⟩] := by
    rw [date_gaps, hdiffs]
    norm_num [List.filterMap_cons]
  refine ⟨⟨false, 4, [⟨d1 + 3, 2⟩], 1⟩, ?_, rfl, rfl⟩
  rw [validate_date_sequence, hdrop]
  rw [if_neg (by norm_num)]
  have hsorted : is_sorted [d1, d1 + 1, d1 + 3, d1 + 4] = false := by
    rw [is_sorted, hdiffs]
    simp [diff_ge_zero, diff_le_zero]
  rw [hsorted, hgaps]
  rfl

/-! INMETDataLoader (src/modules/data_loader.py): the malformed-number
repair of fix_malformed_numbers and the numeric coercion step of load_data
applied to columns that did not already parse as numeric. -/

/-- INMETDataLoader.fix_malformed_numbers: a string value starting with the
comma decimal separator gets a leading zero digit prepended; everything else
passes through unchanged. -/
def fix_malformed_numbers (value : String) : String :=
  match value.toList with
  | ',' :: _ => "0" ++ value
  | _ => value

/-- Numeric value of a list of ASCII digit characters, most significant
first. -/
def digitsToNat (l : List Char) : ℕ :=
  l.foldl (fun acc ch => 10 * acc + (ch.toNat - 48)) 0

/-- Model of `pd.to_numeric(..., errors='coerce')` on a single string cell,
restricted to the plain decimal fragment relevant here: an optional sign,
integer digits and an optional fractional part introduced by the dot
character, with at least one digit overall.  pd.to_numeric has no
decimal-separator parameter, so a comma is never accepted as a decimal
point; a string that does not parse becomes null (NaN), not an error. -/
def to_numeric_coerce (s : String) : Option ℚ :=
  let cs := s.toList
  let signRest : ℚ × List Char :=
    match cs with
    | '-' :: t => (-1, t)
    | '+' :: t => (1, t)
    | _ => (1, cs)
  let intPart := signRest.2.takeWhile Char.isDigit
  let rest := signRest.2.drop intPart.length
  match rest with
  | [] => if intPart.isEmpty then none else some (signRest.1 * (digitsToNat intPart : ℚ))
  | '.' :: frac =>
    if frac.all Char.isDigit && !(intPart.isEmpty && frac.isEmpty) then
      some (signRest.1 * ((digitsToNat intPart : ℚ) +
        (digitsToNat frac : ℚ) / ((10 : ℚ) ^ frac.length)))
    else none
  | _ => none

/-- The per-cell pipeline of load_data for an object-dtype column:
`df[col].apply(self.fix_malformed_numbers)` followed by
`pd.to_numeric(df[col], errors='coerce')`. -/
def load_convert_object_column (raw : List String) : List (Option ℚ) :=
  raw.map fun v => to_numeric_coerce (fix_malformed_numbers v)

/-- The claim C8 is wrong about the code on the path where the repair runs:
fix_malformed_numbers does turn the field value consisting of a comma then
the digit five into that string with a zero digit prepended, but the
subsequent pd.to_numeric conversion does not understand the comma as a
decimal separator, so the repaired string coerces to null, not to the
numeric value 0.5; the same parser does accept the dot-decimal spelling,
which localizes the failure to the decimal separator. -/
theorem C8_repaired_comma_field_becomes_null :
    fix_malformed_numbers ",5" = "0,5" ∧
    to_numeric_coerce (fix_malformed_numbers ",5") = none ∧
    load_convert_object_column ["abc", ",5"] = [none, none] ∧
    to_numeric_coerce "0.5" = some (1/2) := by
  refine ⟨by decide, by decide, by decide, ?_⟩
  have h : to_numeric_coerce "0.5" =
      some ((1 : ℚ) * (((0 : ℕ) : ℚ) + ((5 : ℕ) : ℚ) / ((10 : ℚ) ^ (1 : ℕ)))) := rfl
  rw [h]
  norm_num

/-! DataValidator.detect_missing_data_patterns (src/modules/data_validator.py). -/

/-- A consecutive-null run entry.  The Python dict keys are 'start', 'end'
and 'length' (stop and len here, end being a reserved word); the
start_date/end_date entries carry the Data values at the endpoint rows and
are not needed by any claim. -/
structure NullRun where
  start : ℕ
  stop : ℕ
  len : ℕ
  deriving Repr, DecidableEq

/-- The scanning loop of detect_missing_data_patterns: enumerating the null
mask, a null with no open run opens one at the current index; a non-null
with an open run closes it at the previous index with length idx - start;
a run still open when the rows run out closes at the last row (idx having
become the number of rows). -/
def consecutive_nulls_go : Option ℕ → ℕ → List Bool → List NullRun
  | none, _, [] => []
  | some s, idx, [] => [⟨s, idx - 1, idx - s⟩]
  | none, idx, b :: rest =>
      if b then consecutive_nulls_go (some idx) (idx + 1) rest
      else consecutive_nulls_go none (idx + 1) rest
  | some s, idx, b :: rest =>
      if b then consecutive_nulls_go (some s) (idx + 1) rest
      else ⟨s, idx - 1, idx - s⟩ :: consecutive_nulls_go none (idx + 1) rest

/-- The consecutive_nulls run list computed by detect_missing_data_patterns
from a column's null mask. -/
def consecutive_nulls (mask : List Bool) : List NullRun :=
  consecutive_nulls_go none 0 mask

/-- Per-variable entry of detect_missing_data_patterns; the null_percentage
entry is not needed by any claim and is omitted. -/
structure MissingPattern where
  null_count : ℕ
  runs : List NullRun
  deriving Repr, DecidableEq

/-- detect_missing_data_patterns for one column: a column without nulls short
circuits to an empty run list. -/
def detect_missing_data_patterns_col (c : Col) : MissingPattern :=
  let mask := null_mask c
  let nc := mask.count true
  if nc = 0 then ⟨0, []⟩ else ⟨nc, consecutive_nulls mask⟩

/-- Length already accumulated by an open run. -/
def pendingLen : Option ℕ → ℕ → ℕ
  | none, _ => 0
  | some s, idx => idx - s

/-- Lower bound for the start index of every run the scan can still emit. -/
def startBound : Option ℕ → ℕ → ℕ
  | none, idx => idx
  | some s, _ => s

/-- Indices already covered by an open run. -/
def pendingCover : Option ℕ → ℕ → ℕ → Prop
  | none, _, _ => False
  | some s, idx, i => s ≤ i ∧ i < idx

lemma getD_cons_shift (b : Bool) (rest : List Bool) (idx i : ℕ) (h : idx < i) :
    (b :: rest).getD (i - idx) false = rest.getD (i - (idx + 1)) false := by
  have heq : i - idx = (i - (idx + 1)) + 1 := by omega
  rw [heq, List.getD_cons_succ]

lemma consecutive_nulls_go_sum (l : List Bool) :
    ∀ (idx : ℕ) (start? : Option ℕ), (∀ s, start? = some s → s < idx) →
    ((consecutive_nulls_go start? idx l).map NullRun.len).sum =
      pendingLen start? idx + l.countP id := by
  induction l with
  | nil =>
    intro idx start? hstart
    cases start? with
    | none => simp [consecutive_nulls_go, pendingLen]
    | some s => simp [consecutive_nulls_go, pendingLen]
  | cons b rest ih =>
    intro idx start? hstart
    cases start? with
    | none =>
      cases b with
      | true =>
        have hrec := ih (idx + 1) (some idx) (by intro s hs; cases hs; omega)
        rw [show consecutive_nulls_go none idx (true :: rest) =
            consecutive_nulls_go (some idx) (idx + 1) rest from by
          simp [consecutive_nulls_go]]
        rw [hrec]
        simp [pendingLen, List.countP_cons]
        omega
      | false =>
        have hrec := ih (idx + 1) none (by intro s hs; cases hs)
        rw [show consecutive_nulls_go none idx (false :: rest) =
            consecutive_nulls_go none (idx + 1) rest from by
          simp [consecutive_nulls_go]]
        rw [hrec]
        simp [pendingLen, List.countP_cons]
    | some s =>
      have hs : s < idx := hstart s rfl
      cases b with
      | true =>
        have hrec := ih (idx + 1) (some s) (by intro t ht; cases ht; omega)
        rw [show consecutive_nulls_go (some s) idx (true :: rest) =
            consecutive_nulls_go (some s) (idx + 1) rest from by
          simp [consecutive_nulls_go]]
        rw [hrec]
        simp [pendingLen, List.countP_cons]
        omega
      | false =>
        have hrec := ih (idx + 1) none (by intro t ht; cases ht)
        rw [show consecutive_nulls_go (some s) idx (false :: rest) =
            ⟨s, idx - 1, idx - s⟩ :: consecutive_nulls_go none (idx + 1) rest from by
          simp [consecutive_nulls_go]]
        simp only [List.map_cons, List.sum_cons]
        rw [hrec]
        simp [pendingLen, List.countP_cons]

lemma consecutive_nulls_go_bounds (l : List Bool) :
    ∀ (idx : ℕ) (start? : Option ℕ), (∀ s, start? = some s → s < idx) →
    ∀ r ∈ consecutive_nulls_go start? idx l,
      startBound start? idx ≤ r.start ∧ r.start ≤ r.stop ∧
      r.stop < idx + l.length ∧ r.len = r.stop + 1 - r.start := by
  induction l with
  | nil =>
    intro idx start? hstart r hr
    cases start? with
    | none => simp [consecutive_nulls_go] at hr
    | some s =>
      have hs : s < idx := hstart s rfl
      simp only [consecutive_nulls_go, List.mem_singleton] at hr
      subst hr
      refine ⟨le_refl _, by simp; omega, by simp; omega, by simp; omega⟩
  | cons b rest ih =>
    intro idx start? hstart r hr
    cases start? with
    | none =>
      cases b with
      | true =>
        rw [show consecutive_nulls_go none idx (true :: rest) =
            consecutive_nulls_go (some idx) (idx + 1) rest from by
          simp [consecutive_nulls_go]] at hr
        obtain ⟨h1, h2, h3, h4⟩ :=
          ih (idx + 1) (some idx) (by intro s hs; cases hs; omega) r hr
        simp only [startBound] at h1 ⊢
        exact ⟨h1, h2, by simp at h3 ⊢; omega, h4⟩
      | false =>
        rw [show consecutive_nulls_go none idx (false :: rest) =
            consecutive_nulls_go none (idx + 1) rest from by
          simp [consecutive_nulls_go]] at hr
        obtain ⟨h1, h2, h3, h4⟩ :=
          ih (idx + 1) none (by intro s hs; cases hs) r hr
        simp only [startBound] at h1 ⊢
        exact ⟨by omega, h2, by simp at h3 ⊢; omega, h4⟩
    | some s =>
      have hs : s < idx := hstart s rfl
      cases b with
      | true =>
        rw [show consecutive_nulls_go (some s) idx (true :: rest) =
            consecutive_nulls_go (some s) (idx + 1) rest from by
          simp [consecutive_nulls_go]] at hr
        obtain ⟨h1, h2, h3, h4⟩ :=
          ih (idx + 1) (some s) (by intro t ht; cases ht; omega) r hr
        simp only [startBound] at h1 ⊢
        exact ⟨h1, h2, by simp at h3 ⊢; omega, h4⟩
      | false =>
        rw [show consecutive_nulls_go (some s) idx (false :: rest) =
            ⟨s, idx - 1, idx - s⟩ :: consecutive_nulls_go none (idx + 1) rest from by
          simp [consecutive_nulls_go]] at hr
        rcases List.mem_cons.mp hr with h | h
        · subst h
          refine ⟨le_refl _, by simp; omega, by simp; omega, by simp; omega⟩
        · obtain ⟨h1, h2, h3, h4⟩ :=
            ih (idx + 1) none (by intro t ht; cases ht) r h
          simp only [startBound] at h1 ⊢
          exact ⟨by omega, h2, by simp at h3 ⊢; omega, h4⟩

lemma consecutive_nulls_go_chain (l : List Bool) :
    ∀ (idx : ℕ) (start? : Option ℕ), (∀ s, start? = some s → s < idx) →
    (consecutive_nulls_go start? idx l).Chain' fun a b => a.stop + 1 < b.start := by
  induction l with
  | nil =>
    intro idx start? hstart
    cases start? with
    | none => simp [consecutive_nulls_go]
    | some s => simp [consecutive_nulls_go]
  | cons b rest ih =>
    intro idx start? hstart
    cases start? with
    | none =>
      cases b with
      | true =>
        rw [show consecutive_nulls_go none idx (true :: rest) =
            consecutive_nulls_go (some idx) (idx + 1) rest from by
          simp [consecutive_nulls_go]]
        exact ih (idx + 1) (some idx) (by intro t ht; cases ht; omega)
      | false =>
        rw [show consecutive_nulls_go none idx (false :: rest) =
            consecutive_nulls_go none (idx + 1) rest from by
          simp [consecutive_nulls_go]]
        exact ih (idx + 1) none (by intro t ht; cases ht)
    | some s =>
      have hs : s < idx := hstart s rfl
      cases b with
      | true =>
        rw [show consecutive_nulls_go (some s) idx (true :: rest) =
            consecutive_nulls_go (some s) (idx + 1) rest from by
          simp [consecutive_nulls_go]]
        exact ih (idx + 1) (some s) (by intro t ht; cases ht; omega)
      | false =>
        rw [show consecutive_nulls_go (some s) idx (false :: rest) =
            ⟨s, idx - 1, idx - s⟩ :: consecutive_nulls_go none (idx + 1) rest from by
          simp [consecutive_nulls_go]]
        rw [List.chain'_cons']
        refine ⟨?_, ih (idx + 1) none (by intro t ht; cases ht)⟩
        intro r' hr'
        have hmem : r' ∈ consecutive_nulls_go none (idx + 1) rest := by
          cases hgo : consecutive_nulls_go none (idx + 1) rest with
          | nil => rw [hgo] at hr'; simp at hr'
          | cons a t =>
            rw [hgo] at hr'
            simp at hr'
            subst hr'
            exact List.mem_cons_self _ _
        have hb := consecutive_nulls_go_bounds rest (idx + 1) none
          (by intro t ht; cases ht) r' hmem
        simp only [startBound] at hb
        show (idx - 1) + 1 < r'.start
        omega

lemma getD_true_mem (l : List Bool) (i : ℕ) (h : l.getD i false = true) :
    (true : Bool) ∈ l := by
  induction l generalizing i with
  | nil => simp [List.getD] at h
  | cons b t ihl =>
    cases i with
    | zero =>
      simp at h
      rw [h]
      exact List.mem_cons_self _ _
    | succ n =>
      rw [List.getD_cons_succ] at h
      exact List.mem_cons_of_mem _ (ihl n h)

lemma consecutive_nulls_go_cover (l : List Bool) :
    ∀ (idx : ℕ) (start? : Option ℕ), (∀ s, start? = some s → s < idx) → ∀ i : ℕ,
    (∃ r ∈ consecutive_nulls_go start? idx l, r.start ≤ i ∧ i ≤ r.stop) ↔
      (pendingCover start? idx i ∨ (idx ≤ i ∧ l.getD (i - idx) false = true)) := by
  induction l with
  | nil =>
    intro idx start? hstart i
    cases start? with
    | none => simp [consecutive_nulls_go, pendingCover]
    | some s =>
      have hs : s < idx := hstart s rfl
      simp only [consecutive_nulls_go, pendingCover]
      constructor
      · rintro ⟨r, hr, h1, h2⟩
        simp only [List.mem_singleton] at hr
        subst hr
        have h1' : s ≤ i := h1
        have h2' : i ≤ idx - 1 := h2
        exact Or.inl ⟨h1', by omega⟩
      · rintro (⟨h1, h2⟩ | ⟨h1, h2⟩)
        · refine ⟨⟨s, idx - 1, idx - s⟩, List.mem_singleton.mpr rfl, h1, ?_⟩
          show i ≤ idx - 1
          omega
        · simp at h2
  | cons b rest ih =>
    intro idx start? hstart i
    cases start? with
    | none =>
      cases b with
      | true =>
        rw [show consecutive_nulls_go none idx (true :: rest) =
            consecutive_nulls_go (some idx) (idx + 1) rest from by
          simp [consecutive_nulls_go]]
        rw [ih (idx + 1) (some idx) (by intro t ht; cases ht; omega) i]
        simp only [pendingCover]
        constructor
        · rintro (⟨h1, h2⟩ | ⟨h1, h2⟩)
          · refine Or.inr ⟨by omega, ?_⟩
            have heq : i = idx := by omega
            subst heq
            simp
          · refine Or.inr ⟨by omega, ?_⟩
            rw [getD_cons_shift true rest idx i (by omega)]
            exact h2
        · rintro (hf | ⟨h1, h2⟩)
          · exact hf.elim
          · rcases Nat.eq_or_lt_of_le h1 with heq | hlt
            · exact Or.inl ⟨by omega, by omega⟩
            · refine Or.inr ⟨by omega, ?_⟩
              rw [getD_cons_shift true rest idx i hlt] at h2
              exact h2
      | false =>
        rw [show consecutive_nulls_go none idx (false :: rest) =
            consecutive_nulls_go none (idx + 1) rest from by
          simp [consecutive_nulls_go]]
        rw [ih (idx + 1) none (by intro t ht; cases ht) i]
        simp only [pendingCover]
        constructor
        · rintro (hf | ⟨h1, h2⟩)
          · exact hf.elim
          · refine Or.inr ⟨by omega, ?_⟩
            rw [getD_cons_shift false rest idx i (by omega)]
            exact h2
        · rintro (hf | ⟨h1, h2⟩)
          · exact hf.elim
          · rcases Nat.eq_or_lt_of_le h1 with heq | hlt
            · subst heq
              simp at h2
            · refine Or.inr ⟨by omega, ?_⟩
              rw [getD_cons_shift false rest idx i hlt] at h2
              exact h2
    | some s =>
      have hs : s < idx := hstart s rfl
      cases b with
      | true =>
        rw [show consecutive_nulls_go (some s) idx (true :: rest) =
            consecutive_nulls_go (some s) (idx + 1) rest from by
          simp [consecutive_nulls_go]]
        rw [ih (idx + 1) (some s) (by intro t ht; cases ht; omega) i]
        simp only [pendingCover]
        constructor
        · rintro (⟨h1, h2⟩ | ⟨h1, h2⟩)
          · rcases Nat.lt_or_ge i idx with hlt | hge
            · exact Or.inl ⟨h1, hlt⟩
            · refine Or.inr ⟨hge, ?_⟩
              have heq : i = idx := by omega
              subst heq
              simp
          · refine Or.inr ⟨by omega, ?_⟩
            rw [getD_cons_shift true rest idx i (by omega)]
            exact h2
        · rintro (⟨h1, h2⟩ | ⟨h1, h2⟩)
          · exact Or.inl ⟨h1, by omega⟩
          · rcases Nat.eq_or_lt_of_le h1 with heq | hlt
            · exact Or.inl ⟨by omega, by omega⟩
            · refine Or.inr ⟨by omega, ?_⟩
              rw [getD_cons_shift true rest idx i hlt] at h2
              exact h2
      | false =>
        rw [show consecutive_nulls_go (some s) idx (false :: rest) =
            ⟨s, idx - 1, idx - s⟩ :: consecutive_nulls_go none (idx + 1) rest from by
          simp [consecutive_nulls_go]]
        simp only [pendingCover]
        constructor
        · rintro ⟨r, hr, h1, h2⟩
          rcases List.mem_cons.mp hr with heq | hmem
          · subst heq
            have h1' : s ≤ i := h1
            have h2' : i ≤ idx - 1 := h2
            exact Or.inl ⟨h1', by omega⟩
          · have hih := (ih (idx + 1) none (by intro t ht; cases ht) i).mp
              ⟨r, hmem, h1, h2⟩
            rcases hih with hf | ⟨ha, hb⟩
            · exact hf.elim
            · refine Or.inr ⟨by omega, ?_⟩
              rw [getD_cons_shift false rest idx i (by omega)]
              exact hb
        · rintro (⟨h1, h2⟩ | ⟨h1, h2⟩)
          · refine ⟨⟨s, idx - 1, idx - s⟩, List.mem_cons_self _ _, h1, ?_⟩
            show i ≤ idx - 1
            omega
          · rcases Nat.eq_or_lt_of_le h1 with heq | hlt
            · subst heq
              simp at h2
            · have h2' : rest.getD (i - (idx + 1)) false = true := by
                rw [getD_cons_shift false rest idx i hlt] at h2
                exact h2
              obtain ⟨r, hmem, ha, hb⟩ :=
                (ih (idx + 1) none (by intro t ht; cases ht) i).mpr
                  (Or.inr ⟨by omega, h2'⟩)
              exact ⟨r, List.mem_cons_of_mem _ hmem, ha, hb⟩

/-- The claim C9: for every variable, the consecutive-null runs of
detect_missing_data_patterns are strictly separated (non-overlapping, ordered
by start index, with a non-null row between adjacent runs, hence maximal),
their lengths are stop - start + 1 and sum to null_count, an index is null
exactly when some run covers it, every run ends inside the table, and the
mask [F,F,T,T,T,F,T] yields exactly the runs (2,4,len 3) and (6,6,len 1),
the second closing at the last row. -/
theorem C9_missing_pattern_runs (c : Col) :
    (((detect_missing_data_patterns_col c).runs).map NullRun.len).sum =
        (detect_missing_data_patterns_col c).null_count ∧
    (detect_missing_data_patterns_col c).null_count = (null_mask c).count true ∧
    ((detect_missing_data_patterns_col c).runs).Chain'
        (fun a b => a.stop + 1 < b.start) ∧
    (∀ r ∈ (detect_missing_data_patterns_col c).runs,
        r.start ≤ r.stop ∧ r.len = r.stop + 1 - r.start ∧ r.stop < c.length) ∧
    (∀ i : ℕ, ((null_mask c).getD i false = true ↔
        ∃ r ∈ (detect_missing_data_patterns_col c).runs,
          r.start ≤ i ∧ i ≤ r.stop)) ∧
    consecutive_nulls [false, false, true, true, true, false, true] =
      [⟨2, 4, 3⟩, ⟨6, 6, 1⟩] := by
  have hstart0 : ∀ s : ℕ, (none : Option ℕ) = some s → s < 0 := by
    intro s hs; cases hs
  by_cases hnc : (null_mask c).count true = 0
  · have hdet : detect_missing_data_patterns_col c = ⟨0, []⟩ := by
      simp [detect_missing_data_patterns_col, hnc]
    rw [hdet]
    refine ⟨by simp, by simp [hnc], by simp, by simp, ?_, by decide⟩
    intro i
    constructor
    · intro hg
      exfalso
      have hmem := getD_true_mem (null_mask c) i hg
      exact absurd hmem (List.count_eq_zero.mp hnc)
    · rintro ⟨r, hr, -, -⟩
      simp at hr
  · have hdet : detect_missing_data_patterns_col c =
        ⟨(null_mask c).count true, consecutive_nulls (null_mask c)⟩ := by
      simp [detect_missing_data_patterns_col, hnc]
    rw [hdet]
    have hcount : (null_mask c).count true = (null_mask c).countP id := by
      have h := count_true_map id (null_mask c)
      rw [List.map_id] at h
      exact h
    have hsum := consecutive_nulls_go_sum (null_mask c) 0 none hstart0
    have hbounds := consecutive_nulls_go_bounds (null_mask c) 0 none hstart0
    have hchain := consecutive_nulls_go_chain (null_mask c) 0 none hstart0
    have hcov := consecutive_nulls_go_cover (null_mask c) 0 none hstart0
    refine ⟨?_, rfl, hchain, ?_, ?_, by decide⟩
    · show ((consecutive_nulls (null_mask c)).map NullRun.len).sum =
        (null_mask c).count true
      rw [consecutive_nulls, hsum]
      simp only [pendingLen, Nat.zero_add]
      exact hcount.symm
    · intro r hr
      obtain ⟨h1, h2, h3, h4⟩ := hbounds r (by rwa [consecutive_nulls] at hr)
      have hlen : (null_mask c).length = c.length := by simp [null_mask]
      exact ⟨h2, h4, by omega⟩
    · intro i
      constructor
      · intro hg
        exact (hcov i).mpr (Or.inr ⟨Nat.zero_le i, by simpa using hg⟩)
      · intro hex
        have hih := (hcov i).mp (by rwa [consecutive_nulls] at hex)
        rcases hih with hf | ⟨-, hgd⟩
        · exact hf.elim
        · simpa using hgd

end INMET
